import Mathlib

/-!
Verification of the YTCatalog folder/filter engine.

We shallowly embed the storage operations (`storage.ts`: `FolderStorage`),
the content-script filter pass (`applyFolderFilter`, `getFolderIdForPlaylist`),
the scraper (`scrapeAllPlaylists`, `extractPlaylistId`), the lazy-load scroll
driver (`scrollToLoadAllPlaylists`), the mutation debounce
(`handlePlaylistMutations`) and the modal rename flow
(`handleRenameFolderInModal`) as pure Lean functions, and prove or refute
the specification's claims about them.

`Record<string, Folder>` is modelled as a `List Folder` in key-insertion
order; record keys always coincide with the `id` field of the stored folder,
so lookups `folders[id]` become `findFolder`, key updates become
first-match updates, and real stores have `Nodup` ids (record keys are
unique).  JavaScript `Map` (used by `importFolders`) is modelled as an
association list with insertion-order iteration where `set` on an existing
key keeps its position.
-/

namespace YTCatalog

/-! ### String primitives

JavaScript's `trim`, `toLowerCase` and `startsWith` are modelled on the
character list of the string, so that every definition evaluates inside the
kernel.  `strTrim` strips the ASCII whitespace characters, `strLower`
lowercases character-wise, `litMatches` is a literal-prefix test. -/

/-- Whitespace stripped by the `trim` model. -/
def isWsChar (c : Char) : Bool :=
  c = ' ' ∨ c = '\t' ∨ c = '\n' ∨ c = '\r'

/-- Model of `String.prototype.trim`. -/
def strTrim (s : String) : String :=
  String.mk (((s.data.dropWhile isWsChar).reverse.dropWhile isWsChar).reverse)

/-- Model of `String.prototype.toLowerCase`. -/
def strLower (s : String) : String :=
  String.mk (s.data.map Char.toLower)

/-- Literal-prefix test on character lists (model of `startsWith` and of
literal fragments inside the regexes). -/
def litMatches : List Char → List Char → Bool
  | [], _ => true
  | _ :: _, [] => false
  | c :: cs, d :: ds => c = d ∧ litMatches cs ds

/-- `Folder` record from `types.ts` (`id`, `name`, `playlistIds`). -/
structure Folder where
  id : String
  name : String
  playlistIds : List String
  deriving Repr, DecidableEq

/-- A folder store: `Object.values` of the `Record<string, Folder>` held in
`chrome.storage.local`, in key-insertion order. -/
abbrev Store := List Folder

/-- `folders[id]` lookup on the record. -/
def findFolder (fs : Store) (fid : String) : Option Folder :=
  fs.find? (fun f => f.id = fid)

/-- One step of `playlistIds.splice(playlistIds.indexOf(pid), 1)`:
removes the first occurrence of `pid`, if any. -/
def removeFirst (pid : String) : List String → List String
  | [] => []
  | x :: xs => if x = pid then xs else x :: removeFirst pid xs

/-- `FolderStorage.addPlaylistToFolder` (storage.ts lines 321-338):
first removes one occurrence of `pid` from every folder's `playlistIds`,
then pushes `pid` onto the target folder if the record holds that key. -/
def addPlaylistToFolder (fs : Store) (folderId pid : String) : Store :=
  let removed := fs.map (fun f => { f with playlistIds := removeFirst pid f.playlistIds })
  removed.map (fun f =>
    if f.id = folderId then { f with playlistIds := f.playlistIds ++ [pid] } else f)

/-- `FolderStorage.removePlaylistFromFolder` (storage.ts lines 343-355):
removes one occurrence of `pid` from the first folder that contains it
(the loop `break`s after the first hit). -/
def removePlaylistFromFolder (fs : Store) (pid : String) : Store :=
  match fs with
  | [] => []
  | f :: rest =>
    if pid ∈ f.playlistIds then
      { f with playlistIds := removeFirst pid f.playlistIds } :: rest
    else
      f :: removePlaylistFromFolder rest pid

/-- `FolderStorage.folderNameExists`: case-insensitive name lookup over the
store (the candidate is trimmed and lowercased, stored names lowercased). -/
def folderNameExists (fs : Store) (name : String) : Bool :=
  let normalizedName := strLower (strTrim name)
  fs.any (fun f => strLower f.name = normalizedName)

/-- `FolderStorage.renameFolder` (storage.ts lines 310-316): writes the new
name if the record holds the key, otherwise does nothing.  No validation. -/
def renameFolder (fs : Store) (fid newName : String) : Store :=
  if (findFolder fs fid).isSome then
    fs.map (fun f => if f.id = fid then { f with name := newName } else f)
  else fs

/-- Outcome of the modal rename flow. -/
inductive RenameOutcome where
  /-- Folder not found, or the trimmed candidate equals the current name
  (early `return` with no alert). -/
  | noop
  /-- `alert('Folder name cannot be empty')`. -/
  | emptyName
  /-- `alert('A folder with this name already exists')`. -/
  | duplicateName
  /-- `folderStorage.renameFolder` was invoked. -/
  | renamed
  deriving Repr, DecidableEq

/-- `handleRenameFolderInModal` (modal.ts lines 403-426), with the prompt's
answer passed in as `newName` (a cancelled prompt is the `noop` case). -/
def handleRenameFolderInModal (fs : Store) (folderId newName : String) :
    RenameOutcome × Store :=
  match findFolder fs folderId with
  | none => (RenameOutcome.noop, fs)
  | some folder =>
    if strTrim newName = folder.name then (RenameOutcome.noop, fs)
    else
      let trimmedName := strTrim newName
      if trimmedName = "" then (RenameOutcome.emptyName, fs)
      else if folderNameExists fs trimmedName
              ∧ strLower trimmedName ≠ strLower folder.name then
        (RenameOutcome.duplicateName, fs)
      else
        (RenameOutcome.renamed, renameFolder fs folderId trimmedName)

/-! ## Export / import (`storage.ts` lines 408-566) -/

/-- One entry of the export file's `folders` array. -/
structure ExportFolder where
  name : String
  playlistIds : List String
  deriving Repr, DecidableEq

/-- A JavaScript `Map<string, string>`: association list in insertion order;
`set` on an existing key updates the value but keeps the key's position. -/
abbrev OrderedMap := List (String × String)

/-- `Map.prototype.set`. -/
def mapSet (m : OrderedMap) (k v : String) : OrderedMap :=
  if m.any (fun p => p.1 = k) then
    m.map (fun p => if p.1 = k then (k, v) else p)
  else m ++ [(k, v)]

/-- `Map.prototype.get`. -/
def mapGet (m : OrderedMap) (k : String) : Option String :=
  (m.find? (fun p => p.1 = k)).map (fun p => p.2)

/-- Assignment `folders[fid] = f` on the record: updates the existing key in
place, or appends a new key at the end of the iteration order. -/
def storeSet (fs : Store) (fid : String) (f : Folder) : Store :=
  if fs.any (fun g => g.id = fid) then
    fs.map (fun g => if g.id = fid then f else g)
  else fs ++ [f]

/-- `if (existingFolders[folderId]) existingFolders[folderId].playlistIds.push(pid)`:
pushes onto the folder stored under key `fid`, or does nothing if absent. -/
def storePush (fs : Store) (fid pid : String) : Store :=
  fs.map (fun g =>
    if g.id = fid then { g with playlistIds := g.playlistIds ++ [pid] } else g)

/-- First pass of `importFolders`: seed `playlistAssignments` with every
playlist id of every existing folder, mapped to that folder's id. -/
def seedAssignments (fs : Store) : OrderedMap :=
  fs.foldl (fun m f => f.playlistIds.foldl (fun m2 pid => mapSet m2 pid f.id) m) []

/-- `existingNameToId`: lowercased existing names mapped to folder ids. -/
def seedNameToId (fs : Store) : OrderedMap :=
  fs.foldl (fun m f => mapSet m (strLower f.name) f.id) []

/-- Mutable locals of `importFolders` while walking the imported folders. -/
structure ImportState where
  folders : Store
  nameToId : OrderedMap
  assignments : OrderedMap
  nextGen : Nat
  foldersImported : Nat
  deriving Repr, DecidableEq

/-- Body of the `for (const importedFolder of importedFolders)` loop of
`importFolders` (storage.ts lines 507-538).  `gen` supplies the results of
`generateId()`, indexed by how many ids were generated so far. -/
def processImportedFolder (gen : Nat → String) (st : ImportState)
    (imp : ExportFolder) : ImportState :=
  let folderName := strTrim imp.name
  match mapGet st.nameToId (strLower folderName) with
  | some existingId =>
    let fs := storeSet st.folders existingId ⟨existingId, folderName, []⟩
    let asg := imp.playlistIds.foldl (fun m pid => mapSet m pid existingId) st.assignments
    { st with
        folders := fs
        assignments := asg
        foldersImported := st.foldersImported + 1 }
  | none =>
    let folderId := gen st.nextGen
    let fs := storeSet st.folders folderId ⟨folderId, folderName, []⟩
    let n2i := mapSet st.nameToId (strLower folderName) folderId
    let asg := imp.playlistIds.foldl (fun m pid => mapSet m pid folderId) st.assignments
    { folders := fs
      nameToId := n2i
      assignments := asg
      nextGen := st.nextGen + 1
      foldersImported := st.foldersImported + 1 }

/-- `FolderStorage.importFolders` (storage.ts lines 482-566), happy path:
seeds the assignment map from existing folders, replaces/creates folders by
trimmed case-insensitive name, records "last folder wins" assignments,
clears every folder's `playlistIds`, then rebuilds them by walking the
assignment map in iteration order.  Returns the final store and the
`foldersImported` count. -/
def importFolders (gen : Nat → String) (fs : Store)
    (imported : List ExportFolder) : Store × Nat :=
  let st0 : ImportState := ⟨fs, seedNameToId fs, seedAssignments fs, 0, 0⟩
  let st := imported.foldl (processImportedFolder gen) st0
  let cleared := st.folders.map (fun f => { f with playlistIds := [] })
  let final := st.assignments.foldl (fun fs2 kv => storePush fs2 kv.2 kv.1) cleared
  (final, st.foldersImported)

/-! ## Filter engine (content script, part_008 lines 881-938) -/

/-- `FOLDER_ID_ALL` sentinel. -/
def FOLDER_ID_ALL : String := "__all__"

/-- `FOLDER_ID_UNASSIGNED` sentinel. -/
def FOLDER_ID_UNASSIGNED : String := "__unassigned__"

/-- `getFolderIdForPlaylist` (part_008 lines 881-891): id of the first
folder, in `Object.values` order, whose `playlistIds` includes `pid`;
`none` when unassigned. -/
def getFolderIdForPlaylist (pid : String) (folders : Store) : Option String :=
  match folders with
  | [] => none
  | f :: rest =>
    if pid ∈ f.playlistIds then some f.id else getFolderIdForPlaylist pid rest

/-! ## Scraper (part_008 lines 1044-1167)

A DOM playlist card is abstracted to the data the scraper reads from it:
the `className` of the first `div.yt-lockup-view-model[class*="content-id-"]`
descendant (if any), the `href` of the first `a[href*="/playlist?list="]`
descendant (if any), and the optional title attribute / text content,
thumbnail `src` and count-badge text.  The two id-extraction regexes are
implemented as character-level scanners with JavaScript first-match
semantics. -/

/-- One DOM card (`ytd-rich-item-renderer[lockup="true"]`), reduced to the
attributes the scraper reads. -/
structure Card where
  /-- `className` of the lockup div matched by `SELECTORS.lockupWithId`;
  `none` when the card has no such descendant. -/
  lockupClassName : Option String
  /-- `getAttribute('href')` of the anchor matched by
  `SELECTORS.playlistLink`; `none` when the card has no such descendant. -/
  playlistHref : Option String
  /-- `getAttribute('title')` of the `h3[title]` element, `none` when the
  element is absent (the attribute itself is present by the selector). -/
  titleAttr : Option String
  /-- `textContent` of the `h3[title]` element. -/
  titleText : Option String
  /-- `src` of the thumbnail image. -/
  thumbnailSrc : Option String
  /-- `textContent` of the video-count badge. -/
  videoCountText : Option String
  deriving Repr, DecidableEq

/-- Character class `[A-Za-z0-9_-]` of both id regexes. -/
def isIdChar (c : Char) : Bool :=
  ('A' ≤ c ∧ c ≤ 'Z') ∨ ('a' ≤ c ∧ c ≤ 'z') ∨ ('0' ≤ c ∧ c ≤ '9') ∨ c = '_' ∨ c = '-'

/-- Greedy `([A-Za-z0-9_-]+)` capture: longest prefix of id characters. -/
def takeIdRun : List Char → List Char
  | [] => []
  | c :: cs => if isIdChar c then c :: takeIdRun cs else []

/-- First match of `/content-id-([A-Za-z0-9_-]+)/` (`PLAYLIST_ID_REGEX`):
scan for the literal `content-id-` followed by at least one id character
and return the greedy capture. -/
def findContentId : List Char → Option String
  | [] => none
  | c :: cs =>
    if litMatches "content-id-".data (c :: cs) then
      let run := takeIdRun ((c :: cs).drop "content-id-".data.length)
      if run.isEmpty then findContentId cs else some (String.mk run)
    else findContentId cs

/-- First match of `/[?&]list=([A-Za-z0-9_-]+)/`: scan for `?` or `&`
followed by the literal `list=` and at least one id character. -/
def findListParam : List Char → Option String
  | [] => none
  | c :: cs =>
    if (c = '?' ∨ c = '&') ∧ litMatches "list=".data cs then
      let run := takeIdRun (cs.drop "list=".data.length)
      if run.isEmpty then findListParam cs else some (String.mk run)
    else findListParam cs

/-- `isUserPlaylistId` (part_008 lines 1098-1118): allow-list of prefixes
for user-curated playlist ids. -/
def isUserPlaylistId (pid : String) : Bool :=
  ["PL", "FL", "LL", "WL", "OL", "RD"].any (fun p => litMatches p.data pid.data)

/-- `extractPlaylistId` (part_008 lines 1064-1091): lockup-class regex
first, then the playlist-link href regex, each gated by
`isUserPlaylistId`; `none` when neither method yields a qualifying id. -/
def extractPlaylistId (card : Card) : Option String :=
  let method1 : Option String :=
    match card.lockupClassName with
    | some cls =>
      match findContentId cls.data with
      | some pid => if isUserPlaylistId pid then some pid else none
      | none => none
    | none => none
  match method1 with
  | some pid => some pid
  | none =>
    match card.playlistHref with
    | some href =>
      if href ≠ "" then
        match findListParam href.data with
        | some pid => if isUserPlaylistId pid then some pid else none
        | none => none
      else none
    | none => none

/-- A scraped playlist (`ScrapedPlaylist` in part_008), with the DOM element
reference kept as the card itself. -/
structure ScrapedPlaylist where
  id : String
  title : String
  thumbnailUrl : String
  videoCount : String
  element : Card
  deriving Repr, DecidableEq

/-- JavaScript `a || b` on an optional string: the empty string is falsy. -/
def jsOrStr (a : Option String) (b : String) : String :=
  match a with
  | some s => if s = "" then b else s
  | none => b

/-- Metadata extraction of `scrapeAllPlaylists` for one card (part_008
lines 1148-1163), including every fallback default. -/
def mkScrapedPlaylist (card : Card) (pid : String) : ScrapedPlaylist :=
  { id := pid
    title := strTrim (jsOrStr card.titleAttr (jsOrStr card.titleText "Unknown Playlist"))
    thumbnailUrl := jsOrStr card.thumbnailSrc ""
    videoCount := strTrim (jsOrStr card.videoCountText "")
    element := card }

/-- The `cards.forEach` loop of `scrapeAllPlaylists` with its `seenIds`
set carried explicitly. -/
def scrapeAllPlaylistsAux (cards : List Card) (seen : List String) :
    List ScrapedPlaylist :=
  match cards with
  | [] => []
  | card :: rest =>
    match extractPlaylistId card with
    | none => scrapeAllPlaylistsAux rest seen
    | some pid =>
      if pid ∈ seen then scrapeAllPlaylistsAux rest seen
      else mkScrapedPlaylist card pid :: scrapeAllPlaylistsAux rest (pid :: seen)

/-- `scrapeAllPlaylists` (part_008 lines 1127-1167) over a DOM snapshot,
given as the card list returned by the `querySelectorAll` for
`SELECTORS.playlistCard` in document order. -/
def scrapeAllPlaylists (cards : List Card) : List ScrapedPlaylist :=
  scrapeAllPlaylistsAux cards []

/-! ## `applyFolderFilter` (part_008 lines 903-938) -/

/-- Observable outcome of one `applyFolderFilter` call: the visibility
decision per cached playlist (in cache order), the stored
`selectedFolderId` after the call, and how many times the
stale-selection branch refreshed the dropdown (the "selection reset"
signal to the presentation layer). -/
structure FilterResult where
  visible : List (ScrapedPlaylist × Bool)
  selectedFolderId : Option String
  resetSignals : Nat
  deriving Repr, DecidableEq

/-- `applyFolderFilter` (part_008 lines 903-938) as a pure function of the
requested selection, the cached playlists, the stored folders and the
stored selection.  The deleted-folder branch clears the stored selection,
substitutes `FOLDER_ID_ALL` and signals the reset once; then every playlist
is shown or hidden according to the three-way selection test. -/
def applyFolderFilter (folderId : String) (playlists : List ScrapedPlaylist)
    (folders : Store) (storedSelection : Option String) : FilterResult :=
  let stale := folderId ≠ FOLDER_ID_ALL ∧ folderId ≠ FOLDER_ID_UNASSIGNED
      ∧ findFolder folders folderId = none
  let fid := if stale then FOLDER_ID_ALL else folderId
  let vis := playlists.map (fun p =>
    let playlistFolderId := getFolderIdForPlaylist p.id folders
    let shown : Bool :=
      if fid = FOLDER_ID_ALL then true
      else if fid = FOLDER_ID_UNASSIGNED then playlistFolderId = none
      else playlistFolderId = some fid
    (p, shown))
  { visible := vis
    selectedFolderId := if stale then none else storedSelection
    resetSignals := if stale then 1 else 0 }

/-! ## Lazy-load scroll driver (part_008 lines 985-1035)

The host page is abstracted to whether the two container anchors exist and
to the card count the driver observes after each scroll-and-settle step
(`counts k` is the `querySelectorAll(...).length` read in the `k`-th loop
iteration, `k = 0` first; `initialCount` is the read before the loop).
Scroll positions are plain numbers; setting `scrollTop`/`scrollTo` just
records the value. -/

/-- Host-page behaviour visible to `scrollToLoadAllPlaylists`. -/
structure PageBehavior where
  /-- `document.querySelector(SELECTORS.playlistsGridContainer)` finds a node. -/
  hasGrid : Bool
  /-- the `#contents` scroll container exists inside the grid. -/
  hasContainer : Bool
  /-- card count before the loop. -/
  initialCount : Nat
  /-- card count observed at the end of loop iteration `k`. -/
  counts : Nat → Nat

/-- `MAX_SCROLL_ATTEMPTS` (part_008 line 1002). -/
def MAX_SCROLL_ATTEMPTS : Nat := 50

/-- `STABLE_COUNT_THRESHOLD` (part_008 line 1004). -/
def STABLE_COUNT_THRESHOLD : Nat := 3

/-- State of the driver's `while` loop on exit. -/
structure LoopResult where
  attempts : Nat
  stableCount : Nat
  previousCount : Nat
  deriving Repr, DecidableEq

/-- The `while (attempts < MAX_SCROLL_ATTEMPTS && stableCount <
STABLE_COUNT_THRESHOLD)` loop.  `fuel` is only a structural-termination
bound; it is started at `MAX_SCROLL_ATTEMPTS`, and since `attempts` grows by
one per iteration while the guard requires `attempts < MAX_SCROLL_ATTEMPTS`,
the guard always fails no later than the fuel runs out. -/
def scrollLoopGo (counts : Nat → Nat) :
    Nat → Nat → Nat → Nat → LoopResult
  | 0, previousCount, stableCount, attempts =>
    ⟨attempts, stableCount, previousCount⟩
  | fuel + 1, previousCount, stableCount, attempts =>
    if attempts < MAX_SCROLL_ATTEMPTS ∧ stableCount < STABLE_COUNT_THRESHOLD then
      let currentCount := counts attempts
      if currentCount = previousCount then
        scrollLoopGo counts fuel previousCount (stableCount + 1) (attempts + 1)
      else
        scrollLoopGo counts fuel currentCount 0 (attempts + 1)
    else ⟨attempts, stableCount, previousCount⟩

/-- Observable outcome of `scrollToLoadAllPlaylists`: the returned count,
the final scroll positions and the loop-exit state. -/
structure ScrollOutcome where
  returnedCount : Nat
  windowScroll : Nat
  containerScroll : Nat
  attempts : Nat
  stableCount : Nat
  deriving Repr, DecidableEq

/-- `scrollToLoadAllPlaylists` (part_008 lines 985-1035).  Missing grid or
scroll container return `0` immediately with the scroll positions
untouched.  Otherwise the loop runs, a final fresh count is read, and both
the window and the container are scrolled to position `0` ("Scroll back to
top for better UX"). -/
def scrollToLoadAllPlaylists (page : PageBehavior)
    (initWindowScroll initContainerScroll : Nat) : ScrollOutcome :=
  if page.hasGrid ∧ page.hasContainer then
    let r := scrollLoopGo page.counts MAX_SCROLL_ATTEMPTS page.initialCount 0 0
    { returnedCount := page.counts r.attempts
      windowScroll := 0
      containerScroll := 0
      attempts := r.attempts
      stableCount := r.stableCount }
  else
    { returnedCount := 0
      windowScroll := initWindowScroll
      containerScroll := initContainerScroll
      attempts := 0
      stableCount := 0 }

/-! ## Mutation debounce (part_008 lines 767-810)

`handlePlaylistMutations` is modelled against an explicit event-loop timer
table: `setTimeout` hands out fresh timer ids in order, `clearTimeout`
records the cancelled id, and a timer's callback runs exactly when the
debounce window elapses with the timer still uncancelled.  Each callback
run (with the scroll-to-load flag clear) performs one rescan-and-refilter
pass, so the number of rescans equals the number of scheduled timers that
were never cancelled. -/

/-- Timer bookkeeping relevant to the mutation debounce. -/
structure DebounceState where
  /-- next id `setTimeout` will return. -/
  nextTimerId : Nat
  /-- the `mutationDebounceTimer` variable. -/
  pendingTimer : Option Nat
  /-- ids handed out by `setTimeout`, in order. -/
  scheduled : List Nat
  /-- ids passed to `clearTimeout`. -/
  cancelled : List Nat
  deriving Repr, DecidableEq

/-- State before any mutation event. -/
def initialDebounceState : DebounceState :=
  { nextTimerId := 0, pendingTimer := none, scheduled := [], cancelled := [] }

/-- `handlePlaylistMutations` (part_008 lines 781-810): clear the pending
debounce timer, if any, then schedule a fresh one and remember it. -/
def handlePlaylistMutations (st : DebounceState) : DebounceState :=
  let cancelled :=
    match st.pendingTimer with
    | some tid => tid :: st.cancelled
    | none => st.cancelled
  { nextTimerId := st.nextTimerId + 1
    pendingTimer := some st.nextTimerId
    scheduled := st.scheduled ++ [st.nextTimerId]
    cancelled := cancelled }

/-- `n` mutation batches in a row, all within the debounce window. -/
def iterateMutations (st : DebounceState) : Nat → DebounceState
  | 0 => st
  | n + 1 => handlePlaylistMutations (iterateMutations st n)

/-- Number of rescan-and-refilter passes that run once the debounce window
elapses: one per scheduled timer that was never cancelled. -/
def firedRescans (st : DebounceState) : Nat :=
  st.scheduled.countP (fun tid => ¬ tid ∈ st.cancelled)

/-! ## Derived notions used by the claims -/

/-- One user-driven assignment mutation against the store. -/
inductive AssignOp where
  /-- `addPlaylistToFolder folderId pid` (assign to a folder). -/
  | add (folderId pid : String)
  /-- `removePlaylistFromFolder pid` (unassign). -/
  | remove (pid : String)
  deriving Repr, DecidableEq

/-- Apply one assignment mutation. -/
def applyAssignOp (fs : Store) : AssignOp → Store
  | AssignOp.add folderId pid => addPlaylistToFolder fs folderId pid
  | AssignOp.remove pid => removePlaylistFromFolder fs pid

/-- Apply a sequence of assignment mutations, oldest first. -/
def applyAssignOps (fs : Store) (ops : List AssignOp) : Store :=
  ops.foldl applyAssignOp fs

/-- Total number of occurrences of `pid` across every folder's
`playlistIds`, counted with multiplicity. -/
def totalCount (pid : String) (fs : Store) : Nat :=
  (fs.map (fun f => f.playlistIds.count pid)).sum

/-- The count observations of the scroll loop, extended with the read taken
before the loop: `extObs page 0` is `initialCount` and `extObs page (k+1)`
is the count read at the end of iteration `k`.  The loop's `previousCount`
at the start of iteration `k` is exactly `extObs page k`. -/
def extObs (page : PageBehavior) : Nat → Nat
  | 0 => page.initialCount
  | k + 1 => page.counts k

/-- The stability-stop condition first holds after step `n`: the last
`STABLE_COUNT_THRESHOLD` observations each repeated their predecessor. -/
def stableAt (page : PageBehavior) (n : Nat) : Prop :=
  STABLE_COUNT_THRESHOLD ≤ n ∧
    ∀ j < STABLE_COUNT_THRESHOLD, extObs page (n - j) = extObs page (n - j - 1)

/-- The loop's two stop reasons after `n` steps: step budget exhausted, or
the count unchanged for `STABLE_COUNT_THRESHOLD` consecutive steps. -/
def scrollStop (page : PageBehavior) (n : Nat) : Prop :=
  n = MAX_SCROLL_ATTEMPTS ∨ stableAt page n

/-! ## C1: import replace-by-name -/

/-- **C1** (code-bug evidence).  The claim (and DEVPLAN decision D-21,
"Existing folder content lost if same-name folder imported") requires
that importing `{folders:[{name:"Music", playlistIds:["A","B"]}]}` over a store
whose case-insensitive match `"music"` contains `["C"]` leaves the
replaced folder's membership exactly `["A","B"]`, with `"C"` unassigned.
The code's first pass seeds the assignment map with `"C" ↦ "m"`, nothing
ever deletes that entry, and the rebuild pushes `"C"` back into the
replaced folder: the final membership is `["C","A","B"]` and `"C"` is
still assigned to the folder, contradicting the claim. -/
theorem importFolders_keeps_stale_member :
    (importFolders (fun n => "gen_" ++ toString n)
        [⟨"m", "music", ["C"]⟩] [⟨"Music", ["A", "B"]⟩]).1
      = [⟨"m", "Music", ["C", "A", "B"]⟩]
    ∧ getFolderIdForPlaylist "C"
        (importFolders (fun n => "gen_" ++ toString n)
          [⟨"m", "music", ["C"]⟩] [⟨"Music", ["A", "B"]⟩]).1 = some "m" := by
  decide

/-! ## C4: stale-selection self-heal -/

/-- **C4** (confirmed).  For every folder set and every selected folder id
that is neither the `__all__` nor the `__unassigned__` sentinel and is not
present in the folder set, the filter pass clears the stored
`selectedFolderId`, applies the "all" outcome (every item visible), and
signals the selection reset to the presentation layer exactly once; the
model is a total function, so no exception is raised. -/
theorem applyFolderFilter_stale_selection_heal
    (fid : String) (playlists : List ScrapedPlaylist) (folders : Store)
    (stored : Option String)
    (h1 : fid ≠ FOLDER_ID_ALL) (h2 : fid ≠ FOLDER_ID_UNASSIGNED)
    (h3 : findFolder folders fid = none) :
    (applyFolderFilter fid playlists folders stored).selectedFolderId = none
    ∧ (applyFolderFilter fid playlists folders stored).resetSignals = 1
    ∧ (applyFolderFilter fid playlists folders stored).visible
        = playlists.map (fun p => (p, true)) := by
  simp [applyFolderFilter, h1, h2, h3]

/-- Witness for `applyFolderFilter_stale_selection_heal` at a concrete
stale selection over a one-item cache and a store without the folder. -/
theorem applyFolderFilter_stale_selection_heal_witness :
    (applyFolderFilter "folder_gone"
        [⟨"PL1", "t", "", "", ⟨none, none, none, none, none, none⟩⟩]
        [⟨"folder_a", "Art", ["PL2"]⟩] (some "folder_gone")).selectedFolderId = none
    ∧ (applyFolderFilter "folder_gone"
        [⟨"PL1", "t", "", "", ⟨none, none, none, none, none, none⟩⟩]
        [⟨"folder_a", "Art", ["PL2"]⟩] (some "folder_gone")).resetSignals = 1
    ∧ (applyFolderFilter "folder_gone"
        [⟨"PL1", "t", "", "", ⟨none, none, none, none, none, none⟩⟩]
        [⟨"folder_a", "Art", ["PL2"]⟩] (some "folder_gone")).visible
        = List.map (fun p => (p, true))
            [⟨"PL1", "t", "", "", ⟨none, none, none, none, none, none⟩⟩] :=
  applyFolderFilter_stale_selection_heal "folder_gone"
    [⟨"PL1", "t", "", "", ⟨none, none, none, none, none, none⟩⟩]
    [⟨"folder_a", "Art", ["PL2"]⟩] (some "folder_gone")
    (by decide) (by decide) (by decide)

/-! ## C6: debounce coalescing -/

/-- After `k + 1` back-to-back mutation batches the timer table holds the
ids `0, …, k`, all but the last cancelled, with timer `k` pending. -/
theorem iterateMutations_closed (n : Nat) :
    iterateMutations initialDebounceState (n + 1)
      = { nextTimerId := n + 1
          pendingTimer := some n
          scheduled := List.range (n + 1)
          cancelled := (List.range n).reverse } := by
  induction n with
  | zero => rfl
  | succ n ih =>
    show handlePlaylistMutations (iterateMutations initialDebounceState (n + 1)) = _
    rw [ih]
    simp [handlePlaylistMutations, List.range_succ, List.reverse_append]

/-- A burst of `k + 1` mutation batches inside one debounce window fires
exactly one rescan once the window elapses. -/
theorem firedRescans_iterate_succ (k : Nat) :
    firedRescans (iterateMutations initialDebounceState (k + 1)) = 1 := by
  rw [iterateMutations_closed]
  simp only [firedRescans]
  rw [List.range_succ, List.countP_append]
  have h0 : (List.range k).countP
      (fun tid => decide (¬ tid ∈ (List.range k).reverse)) = 0 :=
    List.countP_eq_zero.mpr
      (by intro a ha; simpa [List.mem_reverse] using ha)
  rw [h0]
  simp [List.countP_cons, List.mem_reverse, List.mem_range]

/-- **C6** (confirmed).  For every number `n ≥ 1` of mutation batches
arriving within the debounce window before the timer fires, exactly one
rescan-and-refilter pass runs (not `n`): every new batch cancels the
pending timer and schedules a fresh one, so after any number `m` of
batches at most one scheduled timer is uncancelled (at most one rescan
pending). -/
theorem debounce_coalescing (n m : Nat) (h : 1 ≤ n) :
    firedRescans (iterateMutations initialDebounceState n) = 1
    ∧ firedRescans (iterateMutations initialDebounceState m) ≤ 1 := by
  constructor
  · cases n with
    | zero => exact absurd h (by decide)
    | succ k => exact firedRescans_iterate_succ k
  · cases m with
    | zero => decide
    | succ k => rw [firedRescans_iterate_succ k]

/-- Witness for `debounce_coalescing`: three mutation batches, then the
window elapses — one rescan; after two batches at most one is pending. -/
theorem debounce_coalescing_witness :
    1 ≤ 3
    ∧ (firedRescans (iterateMutations initialDebounceState 3) = 1
        ∧ firedRescans (iterateMutations initialDebounceState 2) ≤ 1) :=
  ⟨by decide, debounce_coalescing 3 2 (by decide)⟩

/-! ## C7: scroll-position restoration -/

/-- **C7** (counterexample).  The claim says the lazy-load driver restores
the original scroll position on completion.  Starting the driver at window
scroll `5` and container scroll `7` on a page whose count is immediately
stable, it finishes at position `0`/`0`, not `5`/`7`. -/
theorem scroll_restore_cex :
    (scrollToLoadAllPlaylists ⟨true, true, 0, fun _ => 0⟩ 5 7).windowScroll = 0
    ∧ (scrollToLoadAllPlaylists ⟨true, true, 0, fun _ => 0⟩ 5 7).windowScroll ≠ 5
    ∧ (scrollToLoadAllPlaylists ⟨true, true, 0, fun _ => 0⟩ 5 7).containerScroll ≠ 7 := by
  decide

/-- **C7** (amended).  Whenever the grid and scroll container exist, the
driver ends by scrolling both the window and the container to the top
(position `0`) — "Scroll back to top for better UX" — regardless of the
starting positions; the original viewport is restored only when it already
was the top. -/
theorem scroll_resets_to_top (page : PageBehavior) (w c : Nat)
    (hg : page.hasGrid = true) (hc : page.hasContainer = true) :
    (scrollToLoadAllPlaylists page w c).windowScroll = 0
    ∧ (scrollToLoadAllPlaylists page w c).containerScroll = 0 := by
  simp [scrollToLoadAllPlaylists, hg, hc]

/-- Witness for `scroll_resets_to_top` on a concrete page started away
from the top. -/
theorem scroll_resets_to_top_witness :
    (scrollToLoadAllPlaylists ⟨true, true, 4, fun _ => 4⟩ 123 456).windowScroll = 0
    ∧ (scrollToLoadAllPlaylists ⟨true, true, 4, fun _ => 4⟩ 123 456).containerScroll = 0 :=
  scroll_resets_to_top ⟨true, true, 4, fun _ => 4⟩ 123 456 rfl rfl

/-! ## Facts about `removeFirst` -/

/-- `removeFirst` yields a sublist. -/
theorem removeFirst_sublist (pid : String) (l : List String) :
    List.Sublist (removeFirst pid l) l := by
  induction l with
  | nil => simp [removeFirst]
  | cons x xs ih =>
    rw [removeFirst]
    by_cases hx : x = pid
    · rw [if_pos hx]
      exact List.sublist_cons_self x xs
    · rw [if_neg hx]
      exact ih.cons₂ x

/-- `removeFirst` never increases any multiplicity. -/
theorem count_removeFirst_le (pid q : String) (l : List String) :
    (removeFirst pid l).count q ≤ l.count q :=
  (removeFirst_sublist pid l).count_le q

/-- `removeFirst pid` leaves the multiplicity of other values unchanged. -/
theorem count_removeFirst_ne (pid q : String) (l : List String) (hq : q ≠ pid) :
    (removeFirst pid l).count q = l.count q := by
  induction l with
  | nil => rfl
  | cons x xs ih =>
    rw [removeFirst]
    by_cases hx : x = pid
    · rw [if_pos hx]
      subst hx
      simp [List.count_cons, hq]
    · rw [if_neg hx]
      simp [List.count_cons, ih]

/-- If `pid` occurs at most once, `removeFirst` removes it entirely. -/
theorem not_mem_removeFirst_of_count_le_one (pid : String) (l : List String)
    (h : l.count pid ≤ 1) : pid ∉ removeFirst pid l := by
  induction l with
  | nil => simp [removeFirst]
  | cons x xs ih =>
    rw [removeFirst]
    by_cases hx : x = pid
    · rw [if_pos hx]
      subst hx
      have hc : xs.count x = 0 := by
        simp [List.count_cons] at h
        omega
      exact List.count_eq_zero.mp hc
    · rw [if_neg hx]
      have hc : xs.count pid ≤ 1 := by
        simp [List.count_cons] at h
        omega
      intro hmem
      rcases List.mem_cons.mp hmem with h1 | h1
      · exact hx h1.symm
      · exact ih hc h1

/-! ## Facts about `totalCount` -/

/-- Unfolding `totalCount` over a cons. -/
theorem totalCount_cons (q : String) (f : Folder) (fs : Store) :
    totalCount q (f :: fs) = f.playlistIds.count q + totalCount q fs := by
  simp [totalCount]

/-- A member folder's multiplicity is bounded by the store total. -/
theorem count_le_totalCount (q : String) (fs : Store) (f : Folder)
    (hf : f ∈ fs) : f.playlistIds.count q ≤ totalCount q fs :=
  List.le_sum_of_mem (List.mem_map_of_mem _ hf)

/-- Folders that contain `pid` are counted by `totalCount pid`. -/
theorem countP_mem_le_totalCount (pid : String) (fs : Store) :
    fs.countP (fun f => pid ∈ f.playlistIds) ≤ totalCount pid fs := by
  induction fs with
  | nil => simp [totalCount]
  | cons f fs ih =>
    rw [List.countP_cons, totalCount_cons]
    by_cases hm : pid ∈ f.playlistIds
    · have h1 : 1 ≤ f.playlistIds.count pid := List.one_le_count_iff.mpr hm
      simp [hm]
      omega
    · simp [hm]
      omega

/-! ## C10: assignment to a missing target folder -/

/-- Phase-one and phase-two of `addPlaylistToFolder` preserve the id list. -/
theorem addPlaylistToFolder_ids (fs : Store) (folderId pid : String) :
    (addPlaylistToFolder fs folderId pid).map Folder.id = fs.map Folder.id := by
  simp only [addPlaylistToFolder, List.map_map]
  apply List.map_congr_left
  intro a _
  by_cases h : a.id = folderId <;> simp [h]

/-- **C10** (counterexample).  The claim says that for every folder set,
adding a playlist to a missing target removes the id from every folder and
leaves it unassigned.  On a store whose single folder holds `["A", "A"]`,
the splice removes only the first duplicate: `"A"` is still a member of
`f1` afterwards (`totalCount` is `1`, not `0`). -/
theorem addPlaylistToFolder_missing_target_cex :
    findFolder [⟨"f1", "One", ["A", "A"]⟩] "folder_x" = none
    ∧ addPlaylistToFolder [⟨"f1", "One", ["A", "A"]⟩] "folder_x" "A"
        = [⟨"f1", "One", ["A"]⟩]
    ∧ totalCount "A"
        (addPlaylistToFolder [⟨"f1", "One", ["A", "A"]⟩] "folder_x" "A") = 1 := by
  decide

/-- Pushing onto a target id held by no folder is the identity. -/
theorem map_push_id (folderId pid : String) :
    ∀ l : Store, (∀ f ∈ l, f.id ≠ folderId) →
      l.map (fun f =>
        if f.id = folderId then { f with playlistIds := f.playlistIds ++ [pid] } else f) = l
  | [], _ => rfl
  | a :: l, hl => by
    rw [List.map_cons, if_neg (hl a (List.mem_cons_self a l)),
      map_push_id folderId pid l (fun f hf => hl f (List.mem_cons_of_mem a hf))]

/-- **C10** (amended).  For every folder set in which the playlist id
occurs at most once per folder, calling `addPlaylistToFolder` with a
target folder id held by no folder completes (the model is total), leaves
every folder equal to itself minus its occurrence of the id, and inserts
the id nowhere: afterwards the id occurs in no folder at all
(`totalCount = 0`), i.e. the playlist silently becomes unassigned. -/
theorem addPlaylistToFolder_missing_target (fs : Store) (folderId pid : String)
    (htarget : ∀ f ∈ fs, f.id ≠ folderId)
    (hmult : ∀ f ∈ fs, f.playlistIds.count pid ≤ 1) :
    addPlaylistToFolder fs folderId pid
      = fs.map (fun f => { f with playlistIds := removeFirst pid f.playlistIds })
    ∧ totalCount pid (addPlaylistToFolder fs folderId pid) = 0 := by
  have hmap : addPlaylistToFolder fs folderId pid
      = fs.map (fun f => { f with playlistIds := removeFirst pid f.playlistIds }) := by
    simp only [addPlaylistToFolder]
    apply map_push_id
    intro a ha
    rcases List.mem_map.mp ha with ⟨b, hb, rfl⟩
    exact htarget b hb
  refine ⟨hmap, ?_⟩
  rw [hmap]
  unfold totalCount
  rw [List.map_map]
  apply List.sum_eq_zero
  intro x hx
  rcases List.mem_map.mp hx with ⟨a, ha, rfl⟩
  exact List.count_eq_zero.mpr
    (not_mem_removeFirst_of_count_le_one pid a.playlistIds (hmult a ha))

/-- Witness for `addPlaylistToFolder_missing_target` at a concrete store
with no folder named by the target id. -/
theorem addPlaylistToFolder_missing_target_witness :
    addPlaylistToFolder [⟨"f1", "One", ["A"]⟩, ⟨"f2", "Two", ["B"]⟩] "folder_x" "A"
      = ([⟨"f1", "One", ["A"]⟩, ⟨"f2", "Two", ["B"]⟩] : Store).map
          (fun f => { f with playlistIds := removeFirst "A" f.playlistIds })
    ∧ totalCount "A"
        (addPlaylistToFolder [⟨"f1", "One", ["A"]⟩, ⟨"f2", "Two", ["B"]⟩]
          "folder_x" "A") = 0 :=
  addPlaylistToFolder_missing_target
    [⟨"f1", "One", ["A"]⟩, ⟨"f2", "Two", ["B"]⟩] "folder_x" "A"
    (by decide) (by decide)

/-! ## C2: single-membership invariant -/

/-- **C2** (counterexample).  In the initial store the only playlist id
occurring anywhere is `"A"`, and it appears in exactly one folder (`f1`) —
the claim's precondition "each playlist id appears in at most one folder's
`playlistIds`" holds.  One `addPlaylistToFolder` call moves `"A"` to `f2`,
but the removal phase splices out only the first of `f1`'s duplicated
occurrences, so afterwards `"A"` appears in two folders. -/
theorem assign_single_membership_cex :
    (([⟨"f1", "One", ["A", "A"]⟩, ⟨"f2", "Two", []⟩] : Store).countP
        (fun f => "A" ∈ f.playlistIds) = 1)
    ∧ addPlaylistToFolder [⟨"f1", "One", ["A", "A"]⟩, ⟨"f2", "Two", []⟩] "f2" "A"
        = [⟨"f1", "One", ["A"]⟩, ⟨"f2", "Two", ["A"]⟩]
    ∧ ((addPlaylistToFolder [⟨"f1", "One", ["A", "A"]⟩, ⟨"f2", "Two", []⟩]
          "f2" "A").countP (fun f => "A" ∈ f.playlistIds) = 2) := by
  decide

/-- The removal phase of `addPlaylistToFolder` empties the store of `pid`
whenever the store held at most one occurrence in total. -/
theorem totalCount_strip_eq_zero (pid : String) (fs : Store)
    (h : ∀ f ∈ fs, f.playlistIds.count pid ≤ 1) :
    totalCount pid
      (fs.map (fun f => { f with playlistIds := removeFirst pid f.playlistIds })) = 0 := by
  unfold totalCount
  rw [List.map_map]
  apply List.sum_eq_zero
  intro x hx
  rcases List.mem_map.mp hx with ⟨a, ha, rfl⟩
  exact List.count_eq_zero.mpr
    (not_mem_removeFirst_of_count_le_one pid a.playlistIds (h a ha))

/-- The removal phase leaves the total of any other id unchanged. -/
theorem totalCount_strip_ne (pid q : String) (fs : Store) (hq : q ≠ pid) :
    totalCount q
      (fs.map (fun f => { f with playlistIds := removeFirst pid f.playlistIds }))
      = totalCount q fs := by
  unfold totalCount
  rw [List.map_map]
  congr 1
  apply List.map_congr_left
  intro a _
  exact count_removeFirst_ne pid q a.playlistIds hq

/-- The push phase adds one occurrence of `pid` per folder whose id
matches the target key. -/
theorem totalCount_push_self (folderId pid : String) :
    ∀ l : Store,
      totalCount pid
        (l.map (fun f =>
          if f.id = folderId then { f with playlistIds := f.playlistIds ++ [pid] } else f))
        = totalCount pid l + l.countP (fun f => f.id = folderId)
  | [] => rfl
  | a :: l => by
    rw [List.map_cons, totalCount_cons, totalCount_cons, List.countP_cons,
      totalCount_push_self folderId pid l]
    by_cases h : a.id = folderId
    · rw [if_pos h]
      simp [h, List.count_append]
      omega
    · rw [if_neg h]
      simp [h]
      omega

/-- The push phase leaves the total of any other id unchanged. -/
theorem totalCount_push_ne (folderId pid q : String) (hq : q ≠ pid) :
    ∀ l : Store,
      totalCount q
        (l.map (fun f =>
          if f.id = folderId then { f with playlistIds := f.playlistIds ++ [pid] } else f))
        = totalCount q l
  | [] => rfl
  | a :: l => by
    rw [List.map_cons, totalCount_cons, totalCount_cons,
      totalCount_push_ne folderId pid q hq l]
    by_cases h : a.id = folderId
    · rw [if_pos h]
      simp [List.count_append, List.count_singleton, hq]
    · rw [if_neg h]

/-- Record keys are unique, so at most one folder matches the target key. -/
theorem countP_id_le_one (folderId : String) :
    ∀ fs : Store, (fs.map Folder.id).Nodup →
      fs.countP (fun f => f.id = folderId) ≤ 1
  | [], _ => by simp
  | f :: fs, h => by
    rw [List.map_cons, List.nodup_cons] at h
    rw [List.countP_cons]
    by_cases hf : f.id = folderId
    · have h0 : fs.countP (fun f => f.id = folderId) = 0 := by
        apply List.countP_eq_zero.mpr
        intro g hg
        simp only [decide_eq_true_eq]
        intro hgid
        exact h.1 (by rw [hf, ← hgid]; exact List.mem_map_of_mem _ hg)
      simp [hf, h0]
    · have := countP_id_le_one folderId fs h.2
      simp [hf]
      omega

/-- The removal phase preserves the id list. -/
theorem strip_ids (pid : String) (fs : Store) :
    (fs.map (fun f => { f with playlistIds := removeFirst pid f.playlistIds })).map
        Folder.id = fs.map Folder.id := by
  rw [List.map_map]
  rfl

/-- `addPlaylistToFolder` keeps every total multiplicity at most one. -/
theorem addPlaylistToFolder_totalCount_le (fs : Store) (folderId pid : String)
    (hids : (fs.map Folder.id).Nodup)
    (hmult : ∀ r, totalCount r fs ≤ 1) (q : String) :
    totalCount q (addPlaylistToFolder fs folderId pid) ≤ 1 := by
  simp only [addPlaylistToFolder]
  by_cases hq : q = pid
  · subst hq
    rw [totalCount_push_self]
    have h0 : totalCount q
        (fs.map (fun f => { f with playlistIds := removeFirst q f.playlistIds })) = 0 :=
      totalCount_strip_eq_zero q fs
        (fun f hf => le_trans (count_le_totalCount q fs f hf) (hmult q))
    have h1 : (fs.map (fun f =>
        { f with playlistIds := removeFirst q f.playlistIds })).countP
        (fun f => f.id = folderId) ≤ 1 := by
      apply countP_id_le_one
      rw [strip_ids]
      exact hids
    omega
  · rw [totalCount_push_ne folderId pid q hq, totalCount_strip_ne pid q fs hq]
    exact hmult q

/-- `removePlaylistFromFolder` never increases any total multiplicity. -/
theorem removePlaylistFromFolder_totalCount_le (pid q : String) :
    ∀ fs : Store,
      totalCount q (removePlaylistFromFolder fs pid) ≤ totalCount q fs
  | [] => le_refl _
  | f :: fs => by
    rw [removePlaylistFromFolder]
    by_cases h : pid ∈ f.playlistIds
    · rw [if_pos h, totalCount_cons, totalCount_cons]
      exact Nat.add_le_add_right (count_removeFirst_le pid q f.playlistIds) _
    · rw [if_neg h, totalCount_cons, totalCount_cons]
      exact Nat.add_le_add_left (removePlaylistFromFolder_totalCount_le pid q fs) _

/-- `removePlaylistFromFolder` preserves the id list. -/
theorem removePlaylistFromFolder_ids (pid : String) :
    ∀ fs : Store,
      (removePlaylistFromFolder fs pid).map Folder.id = fs.map Folder.id
  | [] => rfl
  | f :: fs => by
    rw [removePlaylistFromFolder]
    by_cases h : pid ∈ f.playlistIds
    · rw [if_pos h]
      rfl
    · rw [if_neg h, List.map_cons, List.map_cons,
        removePlaylistFromFolder_ids pid fs]

/-- Both store well-formedness facts survive any assignment mutation. -/
theorem applyAssignOp_inv (fs : Store) (op : AssignOp)
    (hids : (fs.map Folder.id).Nodup) (hmult : ∀ r, totalCount r fs ≤ 1) :
    ((applyAssignOp fs op).map Folder.id).Nodup
      ∧ ∀ r, totalCount r (applyAssignOp fs op) ≤ 1 := by
  cases op with
  | add folderId pid =>
    refine ⟨?_, fun r => addPlaylistToFolder_totalCount_le fs folderId pid hids hmult r⟩
    rw [applyAssignOp, addPlaylistToFolder_ids]
    exact hids
  | remove pid =>
    refine ⟨?_, fun r =>
      le_trans (removePlaylistFromFolder_totalCount_le pid r fs) (hmult r)⟩
    rw [applyAssignOp, removePlaylistFromFolder_ids]
    exact hids

/-- Well-formedness survives any sequence of assignment mutations. -/
theorem applyAssignOps_inv (ops : List AssignOp) :
    ∀ fs : Store, (fs.map Folder.id).Nodup → (∀ r, totalCount r fs ≤ 1) →
      ((applyAssignOps fs ops).map Folder.id).Nodup
        ∧ ∀ r, totalCount r (applyAssignOps fs ops) ≤ 1 := by
  induction ops with
  | nil => exact fun fs h1 h2 => ⟨h1, h2⟩
  | cons op ops ih =>
    intro fs h1 h2
    have hstep := applyAssignOp_inv fs op h1 h2
    exact ih (applyAssignOp fs op) hstep.1 hstep.2

/-- **C2** (amended).  For every initial folder set with unique record
keys in which each playlist id occurs at most once across all folders'
`playlistIds` (counting repetitions — in particular never twice inside one
folder), and for every sequence of `addPlaylistToFolder` /
`removePlaylistFromFolder` calls with arbitrary arguments, every playlist
id still appears in at most one folder's `playlistIds`.  Quantifying over
all operation sequences covers the state after each call of any given
sequence. -/
theorem assign_single_membership_invariant (fs : Store)
    (hids : (fs.map Folder.id).Nodup)
    (hmult : ∀ r, totalCount r fs ≤ 1)
    (ops : List AssignOp) (pid : String) :
    (applyAssignOps fs ops).countP (fun f => pid ∈ f.playlistIds) ≤ 1 :=
  le_trans (countP_mem_le_totalCount pid (applyAssignOps fs ops))
    ((applyAssignOps_inv ops fs hids hmult).2 pid)

/-- Witness for `assign_single_membership_invariant`: a concrete store and
a three-operation sequence. -/
theorem assign_single_membership_invariant_witness :
    (applyAssignOps [⟨"f1", "One", []⟩, ⟨"f2", "Two", ["B"]⟩]
        [AssignOp.add "f1" "A", AssignOp.add "f2" "A", AssignOp.remove "B"]).countP
      (fun f => "A" ∈ f.playlistIds) ≤ 1 :=
  assign_single_membership_invariant [⟨"f1", "One", []⟩, ⟨"f2", "Two", ["B"]⟩]
    (by decide)
    (fun r => by
      by_cases h : r = "B"
      · subst h
        decide
      · simp [totalCount, List.count_singleton, Ne.symm h])
    [AssignOp.add "f1" "A", AssignOp.add "f2" "A", AssignOp.remove "B"] "A"

/-! ## C5: rename validation -/

/-- `dropWhile` either empties the list or exposes a failing head. -/
theorem dropWhile_shape (p : Char → Bool) :
    ∀ l : List Char, l.dropWhile p = []
      ∨ ∃ c cs, l.dropWhile p = c :: cs ∧ p c = false
  | [] => Or.inl rfl
  | x :: xs => by
    by_cases h : p x
    · rw [List.dropWhile_cons, if_pos h]
      exact dropWhile_shape p xs
    · rw [List.dropWhile_cons, if_neg h]
      exact Or.inr ⟨x, xs, rfl, by simpa using h⟩

/-- A left-trimmed character list is unchanged by another left trim, even
after trimming its right end. -/
theorem trim_core_idem (l : List Char) :
    (List.rdropWhile isWsChar (l.dropWhile isWsChar)).dropWhile isWsChar
      = List.rdropWhile isWsChar (l.dropWhile isWsChar) := by
  rcases dropWhile_shape isWsChar l with hB | ⟨c, cs, hB, hc⟩
  · rw [hB]
    rfl
  · rw [hB]
    obtain ⟨t, ht⟩ := List.rdropWhile_prefix isWsChar (c :: cs)
    rcases hE : List.rdropWhile isWsChar (c :: cs) with _ | ⟨d, ds⟩
    · rfl
    · rw [hE] at ht
      have hdc : d = c := by
        have := congrArg (fun x => x.head?) ht
        simpa using this
      rw [List.dropWhile_cons, hdc, if_neg (by simp [hc])]

/-- The `trim` model is idempotent, so re-trimming an already trimmed
candidate (as `folderNameExists` does) changes nothing. -/
theorem strTrim_idem (s : String) : strTrim (strTrim s) = strTrim s := by
  show String.mk
      (List.rdropWhile isWsChar
        ((List.rdropWhile isWsChar (s.data.dropWhile isWsChar)).dropWhile isWsChar))
    = String.mk (List.rdropWhile isWsChar (s.data.dropWhile isWsChar))
  rw [trim_core_idem, List.rdropWhile_idempotent]

/-- `findFolder` returns a member with the requested key. -/
theorem findFolder_mem (fs : Store) (fid : String) (tf : Folder)
    (h : findFolder fs fid = some tf) : tf ∈ fs ∧ tf.id = fid := by
  unfold findFolder at h
  exact ⟨List.mem_of_find?_eq_some h, by simpa using List.find?_some h⟩

/-- `folderNameExists` is the case-insensitive match of the trimmed
candidate against the stored names. -/
theorem folderNameExists_iff (fs : Store) (t : String) :
    folderNameExists fs t = true
      ↔ ∃ g ∈ fs, strLower g.name = strLower (strTrim t) := by
  simp [folderNameExists, List.any_eq_true]

/-- **C5** (counterexample).  The claim says renaming fails with the
duplicate-name reason whenever another folder's name matches the candidate
case-insensitively.  In the store `{Music, MUSIC}` (names distinct only by
case), renaming `"m1"`/`Music` to `"music"` succeeds — the flow waives the
duplicate check whenever the candidate matches the folder's *own* name
case-insensitively, even though the distinct folder `"m2"`/`MUSIC` also
matches. -/
theorem renameFolder_duplicate_cex :
    (handleRenameFolderInModal [⟨"m1", "Music", []⟩, ⟨"m2", "MUSIC", []⟩]
        "m1" "music").1 = RenameOutcome.renamed
    ∧ (handleRenameFolderInModal [⟨"m1", "Music", []⟩, ⟨"m2", "MUSIC", []⟩]
        "m1" "music").2 = [⟨"m1", "music", []⟩, ⟨"m2", "MUSIC", []⟩]
    ∧ strLower (Folder.mk "m2" "MUSIC" []).name = strLower (strTrim "music")
    ∧ "m2" ≠ "m1" := by
  decide

/-- **C5** (amended).  For every store whose folder names are nonempty and
pairwise distinct case-insensitively (the invariant the create, rename
and import paths maintain) and every folder id present in the store, the modal
rename flow applies creation's validation with the folder's own name
excluded: it reports the empty-name reason exactly when the trimmed
candidate is empty, reports the duplicate-name reason exactly when the
trimmed candidate is nonempty and some *other* folder matches it
case-insensitively, and on any outcome other than a performed rename the
folder set is unchanged. -/
theorem renameFolder_validation (fs : Store) (folderId newName : String)
    (folder : Folder)
    (hfind : findFolder fs folderId = some folder)
    (hnames : (fs.map (fun f => strLower f.name)).Nodup)
    (hnonempty : ∀ f ∈ fs, f.name ≠ "") :
    ((handleRenameFolderInModal fs folderId newName).1 = RenameOutcome.emptyName
        ↔ strTrim newName = "")
    ∧ ((handleRenameFolderInModal fs folderId newName).1 = RenameOutcome.duplicateName
        ↔ strTrim newName ≠ ""
          ∧ ∃ g ∈ fs, g ≠ folder ∧ strLower g.name = strLower (strTrim newName))
    ∧ ((handleRenameFolderInModal fs folderId newName).1 ≠ RenameOutcome.renamed
        → (handleRenameFolderInModal fs folderId newName).2 = fs) := by
  obtain ⟨hmem, -⟩ := findFolder_mem fs folderId folder hfind
  have hinj := List.inj_on_of_nodup_map hnames
  have hown : folder.name ≠ "" := hnonempty folder hmem
  by_cases h1 : strTrim newName = folder.name
  · have hout : handleRenameFolderInModal fs folderId newName
        = (RenameOutcome.noop, fs) := by
      simp only [handleRenameFolderInModal, hfind]
      rw [if_pos h1]
    rw [hout]
    refine ⟨iff_of_false (by simp) ?_, iff_of_false (by simp) ?_, fun _ => rfl⟩
    · intro h2
      exact hown (by rw [← h1, h2])
    · rintro ⟨-, g, hg, hgne, hglow⟩
      exact hgne (hinj hg hmem (by rw [hglow, h1]))
  · by_cases h2 : strTrim newName = ""
    · have hout : handleRenameFolderInModal fs folderId newName
          = (RenameOutcome.emptyName, fs) := by
        simp only [handleRenameFolderInModal, hfind]
        rw [if_neg h1, if_pos h2]
      rw [hout]
      exact ⟨iff_of_true rfl h2, iff_of_false (by simp) (fun h => h.1 h2),
        fun _ => rfl⟩
    · by_cases h3 : folderNameExists fs (strTrim newName) = true
          ∧ strLower (strTrim newName) ≠ strLower folder.name
      · have hout : handleRenameFolderInModal fs folderId newName
            = (RenameOutcome.duplicateName, fs) := by
          simp only [handleRenameFolderInModal, hfind]
          rw [if_neg h1, if_neg h2, if_pos h3]
        rw [hout]
        refine ⟨iff_of_false (by simp) h2, iff_of_true rfl ⟨h2, ?_⟩, fun _ => rfl⟩
        obtain ⟨g, hg, hglow⟩ := (folderNameExists_iff fs (strTrim newName)).mp h3.1
        rw [strTrim_idem] at hglow
        refine ⟨g, hg, ?_, hglow⟩
        intro hgf
        exact h3.2 (by rw [← hglow, hgf])
      · have hout : handleRenameFolderInModal fs folderId newName
            = (RenameOutcome.renamed, renameFolder fs folderId (strTrim newName)) := by
          simp only [handleRenameFolderInModal, hfind]
          rw [if_neg h1, if_neg h2, if_neg h3]
        rw [hout]
        refine ⟨iff_of_false (by simp) h2, iff_of_false (by simp) ?_,
          fun h => absurd rfl h⟩
        rintro ⟨-, g, hg, hgne, hglow⟩
        apply h3
        refine ⟨?_, ?_⟩
        · apply (folderNameExists_iff fs (strTrim newName)).mpr
          rw [strTrim_idem]
          exact ⟨g, hg, hglow⟩
        · intro hlow
          exact hgne (hinj hg hmem (by rw [hglow, hlow]))

/-- Witness for `renameFolder_validation`: renaming `Music` to `" jazz "`
collides with the distinct folder `Jazz` and must fail as a duplicate. -/
theorem renameFolder_validation_witness :
    ((handleRenameFolderInModal [⟨"m1", "Music", []⟩, ⟨"m2", "Jazz", []⟩]
          "m1" " jazz ").1 = RenameOutcome.emptyName
        ↔ strTrim " jazz " = "")
    ∧ ((handleRenameFolderInModal [⟨"m1", "Music", []⟩, ⟨"m2", "Jazz", []⟩]
          "m1" " jazz ").1 = RenameOutcome.duplicateName
        ↔ strTrim " jazz " ≠ ""
          ∧ ∃ g ∈ ([⟨"m1", "Music", []⟩, ⟨"m2", "Jazz", []⟩] : Store),
              g ≠ ⟨"m1", "Music", []⟩
                ∧ strLower g.name = strLower (strTrim " jazz "))
    ∧ ((handleRenameFolderInModal [⟨"m1", "Music", []⟩, ⟨"m2", "Jazz", []⟩]
          "m1" " jazz ").1 ≠ RenameOutcome.renamed
        → (handleRenameFolderInModal [⟨"m1", "Music", []⟩, ⟨"m2", "Jazz", []⟩]
            "m1" " jazz ").2 = [⟨"m1", "Music", []⟩, ⟨"m2", "Jazz", []⟩]) :=
  renameFolder_validation [⟨"m1", "Music", []⟩, ⟨"m2", "Jazz", []⟩] "m1" " jazz "
    ⟨"m1", "Music", []⟩ (by decide) (by decide) (by decide)

/-! ## C3: filter visibility -/

/-- `getFolderIdForPlaylist` answers `none` exactly for unassigned ids. -/
theorem getFolderIdForPlaylist_eq_none_iff (pid : String) :
    ∀ fs : Store,
      getFolderIdForPlaylist pid fs = none ↔ ∀ f ∈ fs, pid ∉ f.playlistIds
  | [] => by simp [getFolderIdForPlaylist]
  | f :: fs => by
    rw [getFolderIdForPlaylist]
    by_cases h : pid ∈ f.playlistIds
    · rw [if_pos h]
      simp [h]
    · rw [if_neg h]
      rw [getFolderIdForPlaylist_eq_none_iff pid fs]
      simp [h]

/-- A successful lookup names a member folder containing the id. -/
theorem getFolderIdForPlaylist_eq_some (pid x : String) :
    ∀ fs : Store, getFolderIdForPlaylist pid fs = some x →
      ∃ g ∈ fs, g.id = x ∧ pid ∈ g.playlistIds
  | [] => by simp [getFolderIdForPlaylist]
  | f :: fs => by
    rw [getFolderIdForPlaylist]
    by_cases h : pid ∈ f.playlistIds
    · rw [if_pos h]
      intro hx
      exact ⟨f, List.mem_cons_self f fs, by simpa using hx, h⟩
    · rw [if_neg h]
      intro hx
      obtain ⟨g, hg, hgx, hgm⟩ := getFolderIdForPlaylist_eq_some pid x fs hx
      exact ⟨g, List.mem_cons_of_mem f hg, hgx, hgm⟩

/-- With pairwise-disjoint memberships, the first containing folder is the
only containing folder. -/
theorem getFolderIdForPlaylist_of_mem (pid : String) :
    ∀ fs : Store,
      fs.Pairwise (fun f g => ∀ q ∈ f.playlistIds, q ∉ g.playlistIds) →
      ∀ tf ∈ fs, pid ∈ tf.playlistIds →
        getFolderIdForPlaylist pid fs = some tf.id
  | [], _, tf, htf, _ => absurd htf (List.not_mem_nil tf)
  | f :: fs, hdisj, tf, htf, hm => by
    rw [getFolderIdForPlaylist]
    rcases List.mem_cons.mp htf with rfl | htf2
    · rw [if_pos hm]
    · have hnf : pid ∉ f.playlistIds := by
        intro hpf
        exact (List.pairwise_cons.mp hdisj).1 tf htf2 pid hpf hm
      rw [if_neg hnf]
      exact getFolderIdForPlaylist_of_mem pid fs
        (List.pairwise_cons.mp hdisj).2 tf htf2 hm

/-- Under unique record keys and the single-membership discipline,
filtering on an existing folder key tests membership in that folder. -/
theorem getFolderIdForPlaylist_eq_key_iff (pid fid : String) (fs : Store)
    (tf : Folder)
    (hids : (fs.map Folder.id).Nodup)
    (hdisj : fs.Pairwise (fun f g => ∀ q ∈ f.playlistIds, q ∉ g.playlistIds))
    (hfind : findFolder fs fid = some tf) :
    getFolderIdForPlaylist pid fs = some fid ↔ pid ∈ tf.playlistIds := by
  obtain ⟨hmem, hid⟩ := findFolder_mem fs fid tf hfind
  constructor
  · intro hx
    obtain ⟨g, hg, hgx, hgm⟩ := getFolderIdForPlaylist_eq_some pid fid fs hx
    have : g = tf := List.inj_on_of_nodup_map hids hg hmem (by rw [hgx, hid])
    exact this ▸ hgm
  · intro hm
    rw [getFolderIdForPlaylist_of_mem pid fs hdisj tf hmem hm, hid]

/-- **C3** (counterexample).  The claim's specific-folder bullet says an
item is visible iff its id is in the selected folder's `playlistIds`, for
*every* folder set.  In a store where `"P"` sits in two folders, selecting
the second folder hides the item even though `"P"` is in that folder's
list: the code compares against the *first* folder found containing the
id. -/
theorem applyFolderFilter_membership_cex :
    "P" ∈ (Folder.mk "f2" "Two" ["P"]).playlistIds
    ∧ findFolder [⟨"f1", "One", ["P"]⟩, ⟨"f2", "Two", ["P"]⟩] "f2"
        = some ⟨"f2", "Two", ["P"]⟩
    ∧ (applyFolderFilter "f2"
        [⟨"P", "t", "u", "c", ⟨none, none, none, none, none, none⟩⟩]
        [⟨"f1", "One", ["P"]⟩, ⟨"f2", "Two", ["P"]⟩] (some "f2")).visible
        = [(⟨"P", "t", "u", "c", ⟨none, none, none, none, none, none⟩⟩, false)] := by
  decide

/-- **C3** (amended).  For every list of scanned items and every folder
set with unique record keys in which each playlist id appears in at most
one folder's `playlistIds` (pairwise-disjoint memberships), the filter
pass computes visibility as: selection `__all__` shows every item;
selection `__unassigned__` shows an item iff its id is in no folder's
`playlistIds` (each scanned item is decided exactly once, so the visible
set is exactly the scanned set minus the union of memberships); selecting
an existing folder key distinct from the two sentinels shows an item iff
its id is in that folder's `playlistIds`. -/
theorem applyFolderFilter_visibility
    (playlists : List ScrapedPlaylist) (folders : Store)
    (stored : Option String) (fid : String) (tf : Folder)
    (hids : (folders.map Folder.id).Nodup)
    (hdisj : folders.Pairwise (fun f g => ∀ q ∈ f.playlistIds, q ∉ g.playlistIds))
    (hne1 : fid ≠ FOLDER_ID_ALL) (hne2 : fid ≠ FOLDER_ID_UNASSIGNED)
    (hfind : findFolder folders fid = some tf) :
    ((applyFolderFilter FOLDER_ID_ALL playlists folders stored).visible
        = playlists.map (fun p => (p, true)))
    ∧ ((applyFolderFilter FOLDER_ID_UNASSIGNED playlists folders stored).visible
        = playlists.map (fun p => (p, decide (∀ f ∈ folders, p.id ∉ f.playlistIds))))
    ∧ ((applyFolderFilter fid playlists folders stored).visible
        = playlists.map (fun p => (p, decide (p.id ∈ tf.playlistIds)))) := by
  have hstale : ¬ (fid ≠ FOLDER_ID_ALL ∧ fid ≠ FOLDER_ID_UNASSIGNED
      ∧ findFolder folders fid = none) := by
    rintro ⟨-, -, hnone⟩
    rw [hfind] at hnone
    exact Option.noConfusion hnone
  refine ⟨?_, ?_, ?_⟩
  · simp [applyFolderFilter, FOLDER_ID_ALL]
  · have hunassigned : (FOLDER_ID_UNASSIGNED ≠ FOLDER_ID_ALL
        ∧ FOLDER_ID_UNASSIGNED ≠ FOLDER_ID_UNASSIGNED
        ∧ findFolder folders FOLDER_ID_UNASSIGNED = none) → False := by
      rintro ⟨-, h, -⟩
      exact h rfl
    simp only [applyFolderFilter, if_neg hunassigned]
    apply List.map_congr_left
    intro p _
    congr 1
    rw [if_neg (by decide : ¬ FOLDER_ID_UNASSIGNED = FOLDER_ID_ALL),
      if_pos trivial, decide_eq_decide]
    exact getFolderIdForPlaylist_eq_none_iff p.id folders
  · simp only [applyFolderFilter, if_neg hstale]
    apply List.map_congr_left
    intro p _
    congr 1
    rw [if_neg hne1, if_neg hne2, decide_eq_decide]
    exact getFolderIdForPlaylist_eq_key_iff p.id fid folders tf hids hdisj hfind

/-- Witness for `applyFolderFilter_visibility` over a two-folder store and
a two-item cache. -/
theorem applyFolderFilter_visibility_witness :
    ((applyFolderFilter FOLDER_ID_ALL
        [⟨"P", "t", "u", "c", ⟨none, none, none, none, none, none⟩⟩,
         ⟨"Q", "t2", "u2", "c2", ⟨none, none, none, none, none, none⟩⟩]
        [⟨"f1", "One", ["P"]⟩, ⟨"f2", "Two", []⟩] none).visible
      = List.map (fun p => (p, true))
          [⟨"P", "t", "u", "c", ⟨none, none, none, none, none, none⟩⟩,
           ⟨"Q", "t2", "u2", "c2", ⟨none, none, none, none, none, none⟩⟩])
    ∧ ((applyFolderFilter FOLDER_ID_UNASSIGNED
        [⟨"P", "t", "u", "c", ⟨none, none, none, none, none, none⟩⟩,
         ⟨"Q", "t2", "u2", "c2", ⟨none, none, none, none, none, none⟩⟩]
        [⟨"f1", "One", ["P"]⟩, ⟨"f2", "Two", []⟩] none).visible
      = List.map (fun p => (p,
          decide (∀ f ∈ ([⟨"f1", "One", ["P"]⟩, ⟨"f2", "Two", []⟩] : Store),
            p.id ∉ f.playlistIds)))
          [⟨"P", "t", "u", "c", ⟨none, none, none, none, none, none⟩⟩,
           ⟨"Q", "t2", "u2", "c2", ⟨none, none, none, none, none, none⟩⟩])
    ∧ ((applyFolderFilter "f1"
        [⟨"P", "t", "u", "c", ⟨none, none, none, none, none, none⟩⟩,
         ⟨"Q", "t2", "u2", "c2", ⟨none, none, none, none, none, none⟩⟩]
        [⟨"f1", "One", ["P"]⟩, ⟨"f2", "Two", []⟩] none).visible
      = List.map (fun p => (p, decide (p.id ∈ (Folder.mk "f1" "One" ["P"]).playlistIds)))
          [⟨"P", "t", "u", "c", ⟨none, none, none, none, none, none⟩⟩,
           ⟨"Q", "t2", "u2", "c2", ⟨none, none, none, none, none, none⟩⟩]) :=
  applyFolderFilter_visibility
    [⟨"P", "t", "u", "c", ⟨none, none, none, none, none, none⟩⟩,
     ⟨"Q", "t2", "u2", "c2", ⟨none, none, none, none, none, none⟩⟩]
    [⟨"f1", "One", ["P"]⟩, ⟨"f2", "Two", []⟩] none "f1" ⟨"f1", "One", ["P"]⟩
    (by decide) (by decide) (by decide) (by decide) (by decide)

/-! ## C9: scan de-duplication -/

/-- Ids already in `seenIds` produce no further catalog item. -/
theorem scrapeAux_countP_eq_zero (pid : String) :
    ∀ (cards : List Card) (seen : List String), pid ∈ seen →
      (scrapeAllPlaylistsAux cards seen).countP (fun it => it.id = pid) = 0
  | [], _, _ => rfl
  | card :: rest, seen, hp => by
    rw [scrapeAllPlaylistsAux]
    cases hx : extractPlaylistId card with
    | none => exact scrapeAux_countP_eq_zero pid rest seen hp
    | some q =>
      simp only []
      by_cases hq : q ∈ seen
      · rw [if_pos hq]
        exact scrapeAux_countP_eq_zero pid rest seen hp
      · rw [if_neg hq, List.countP_cons,
          scrapeAux_countP_eq_zero pid rest (q :: seen) (List.mem_cons_of_mem q hp)]
        have hqp : q ≠ pid := fun h => hq (by rw [h]; exact hp)
        simp [mkScrapedPlaylist, hqp]

/-- If some card yields `pid` and `pid` is not yet seen, the scan emits
exactly one item with that id. -/
theorem scrapeAux_countP_eq_one (pid : String) :
    ∀ (cards : List Card) (seen : List String), pid ∉ seen →
      (∃ c ∈ cards, extractPlaylistId c = some pid) →
      (scrapeAllPlaylistsAux cards seen).countP (fun it => it.id = pid) = 1
  | [], _, _, hex => absurd hex (by simp)
  | card :: rest, seen, hp, hex => by
    rw [scrapeAllPlaylistsAux]
    cases hx : extractPlaylistId card with
    | none =>
      apply scrapeAux_countP_eq_one pid rest seen hp
      obtain ⟨c, hc, hcx⟩ := hex
      rcases List.mem_cons.mp hc with rfl | hc2
      · rw [hx] at hcx
        exact absurd hcx (by simp)
      · exact ⟨c, hc2, hcx⟩
    | some q =>
      simp only []
      by_cases hq : q ∈ seen
      · rw [if_pos hq]
        apply scrapeAux_countP_eq_one pid rest seen hp
        obtain ⟨c, hc, hcx⟩ := hex
        rcases List.mem_cons.mp hc with rfl | hc2
        · rw [hx] at hcx
          have hqp : q = pid := by simpa using hcx
          exact absurd (hqp ▸ hq) hp
        · exact ⟨c, hc2, hcx⟩
      · rw [if_neg hq, List.countP_cons]
        by_cases hqp : q = pid
        · subst hqp
          rw [scrapeAux_countP_eq_zero q rest (q :: seen) (List.mem_cons_self q seen)]
          simp [mkScrapedPlaylist]
        · rw [scrapeAux_countP_eq_one pid rest (q :: seen) ?notseen ?exrest]
          · simp [mkScrapedPlaylist, hqp]
          case notseen =>
            intro h
            rcases List.mem_cons.mp h with h2 | h2
            · exact hqp h2.symm
            · exact hp h2
          case exrest =>
            obtain ⟨c, hc, hcx⟩ := hex
            rcases List.mem_cons.mp hc with rfl | hc2
            · rw [hx] at hcx
              exact absurd (show q = pid by simpa using hcx) hqp
            · exact ⟨c, hc2, hcx⟩

/-- The item emitted for `pid` carries the metadata of the first card that
yields `pid`. -/
theorem scrapeAux_find_first (pid : String) :
    ∀ (cards : List Card) (seen : List String), pid ∉ seen →
      (scrapeAllPlaylistsAux cards seen).find? (fun it => it.id = pid)
        = (cards.find? (fun c => extractPlaylistId c = some pid)).map
            (fun c => mkScrapedPlaylist c pid)
  | [], _, _ => rfl
  | card :: rest, seen, hp => by
    rw [scrapeAllPlaylistsAux]
    cases hx : extractPlaylistId card with
    | none =>
      rw [List.find?_cons_of_neg _ (by simp [hx])]
      exact scrapeAux_find_first pid rest seen hp
    | some q =>
      simp only []
      by_cases hq : q ∈ seen
      · have hqp : q ≠ pid := fun h => hp (h ▸ hq)
        rw [if_pos hq, List.find?_cons_of_neg _ (by simp [hx, hqp])]
        exact scrapeAux_find_first pid rest seen hp
      · rw [if_neg hq]
        by_cases hqp : q = pid
        · subst hqp
          rw [List.find?_cons_of_pos _ (by simp [mkScrapedPlaylist]),
            List.find?_cons_of_pos _ (by simp [hx])]
          rfl
        · rw [List.find?_cons_of_neg _ (by simp [mkScrapedPlaylist, hqp]),
            List.find?_cons_of_neg _ (by simp [hx, hqp])]
          apply scrapeAux_find_first pid rest (q :: seen)
          intro h
          rcases List.mem_cons.mp h with h2 | h2
          · exact hqp h2.symm
          · exact hp h2

/-- Every emitted item originates from a card that yields its id. -/
theorem scrapeAux_sound :
    ∀ (cards : List Card) (seen : List String),
      ∀ it ∈ scrapeAllPlaylistsAux cards seen,
        ∃ c ∈ cards, extractPlaylistId c = some it.id
  | [], _, it, hit => absurd hit (List.not_mem_nil it)
  | card :: rest, seen, it, hit => by
    rw [scrapeAllPlaylistsAux] at hit
    cases hx : extractPlaylistId card with
    | none =>
      rw [hx] at hit
      obtain ⟨c, hc, hcx⟩ := scrapeAux_sound rest seen it hit
      exact ⟨c, List.mem_cons_of_mem card hc, hcx⟩
    | some q =>
      rw [hx] at hit
      simp only [] at hit
      by_cases hq : q ∈ seen
      · rw [if_pos hq] at hit
        obtain ⟨c, hc, hcx⟩ := scrapeAux_sound rest seen it hit
        exact ⟨c, List.mem_cons_of_mem card hc, hcx⟩
      · rw [if_neg hq] at hit
        rcases List.mem_cons.mp hit with rfl | hit2
        · exact ⟨card, List.mem_cons_self card rest, by rw [hx]; rfl⟩
        · obtain ⟨c, hc, hcx⟩ := scrapeAux_sound rest (q :: seen) it hit2
          exact ⟨c, List.mem_cons_of_mem card hc, hcx⟩

/-- **C9** (confirmed).  For every DOM snapshot in which some card yields
the external id `pid` (in particular when two or more cards yield it), one
scan emits exactly one catalog item with that id; that item is built —
title, thumbnail and count metadata included — from the first-encountered
card yielding `pid`; and every emitted item originates from a card that
yields a qualifying id, so nodes yielding none produce no item. -/
theorem scrape_dedup_first_wins (cards : List Card) (pid : String)
    (it : ScrapedPlaylist)
    (hex : ∃ c ∈ cards, extractPlaylistId c = some pid)
    (hit : it ∈ scrapeAllPlaylists cards) :
    (scrapeAllPlaylists cards).countP (fun j => j.id = pid) = 1
    ∧ (scrapeAllPlaylists cards).find? (fun j => j.id = pid)
        = (cards.find? (fun c => extractPlaylistId c = some pid)).map
            (fun c => mkScrapedPlaylist c pid)
    ∧ ∃ c ∈ cards, extractPlaylistId c = some it.id :=
  ⟨scrapeAux_countP_eq_one pid cards [] (List.not_mem_nil pid) hex,
   scrapeAux_find_first pid cards [] (List.not_mem_nil pid),
   scrapeAux_sound cards [] it hit⟩

/-- Witness for `scrape_dedup_first_wins`: two cards with the same id
`PLa` (different metadata) plus a card yielding no qualifying id. -/
theorem scrape_dedup_first_wins_witness :
    (scrapeAllPlaylists
        [⟨some "content-id-PLa", none, some "T1", none, some "u1", some " 5 videos "⟩,
         ⟨some "content-id-PLa", none, some "T2", none, some "u2", none⟩,
         ⟨none, some "/watch?v=abc", none, none, none, none⟩]).countP
        (fun j => j.id = "PLa") = 1
    ∧ (scrapeAllPlaylists
        [⟨some "content-id-PLa", none, some "T1", none, some "u1", some " 5 videos "⟩,
         ⟨some "content-id-PLa", none, some "T2", none, some "u2", none⟩,
         ⟨none, some "/watch?v=abc", none, none, none, none⟩]).find?
        (fun j => j.id = "PLa")
        = (([⟨some "content-id-PLa", none, some "T1", none, some "u1", some " 5 videos "⟩,
             ⟨some "content-id-PLa", none, some "T2", none, some "u2", none⟩,
             ⟨none, some "/watch?v=abc", none, none, none, none⟩] : List Card).find?
            (fun c => extractPlaylistId c = some "PLa")).map
            (fun c => mkScrapedPlaylist c "PLa")
    ∧ ∃ c ∈ ([⟨some "content-id-PLa", none, some "T1", none, some "u1", some " 5 videos "⟩,
              ⟨some "content-id-PLa", none, some "T2", none, some "u2", none⟩,
              ⟨none, some "/watch?v=abc", none, none, none, none⟩] : List Card),
        extractPlaylistId c
          = some (ScrapedPlaylist.id ⟨"PLa", "T1", "u1", "5 videos",
              ⟨some "content-id-PLa", none, some "T1", none, some "u1", some " 5 videos "⟩⟩) :=
  scrape_dedup_first_wins
    [⟨some "content-id-PLa", none, some "T1", none, some "u1", some " 5 videos "⟩,
     ⟨some "content-id-PLa", none, some "T2", none, some "u2", none⟩,
     ⟨none, some "/watch?v=abc", none, none, none, none⟩]
    "PLa"
    ⟨"PLa", "T1", "u1", "5 videos",
      ⟨some "content-id-PLa", none, some "T1", none, some "u1", some " 5 videos "⟩⟩
    (by decide) (by decide)

/-! ## C8: scroll-loop termination and stop condition -/

/-- Full invariant proof for the scroll loop.  At loop entry with `att`
completed iterations: the fuel tracks the remaining budget, `prev` is the
latest observation, `stable` counts the trailing run of unchanged
observations exactly, and no earlier step satisfied a stop condition.  On
exit: the step count is within budget, the loop stopped for stability or
budget exhaustion, the stop condition holds at the exit step and at no
earlier one. -/
theorem scrollLoopGo_spec (page : PageBehavior) :
    ∀ fuel prev stable att : Nat,
      fuel + att = MAX_SCROLL_ATTEMPTS →
      prev = extObs page att →
      stable ≤ STABLE_COUNT_THRESHOLD →
      stable ≤ att →
      (∀ j < stable, extObs page (att - j) = extObs page (att - j - 1)) →
      (stable < STABLE_COUNT_THRESHOLD →
        stable = att ∨ extObs page (att - stable) ≠ extObs page (att - stable - 1)) →
      (∀ m < att, ¬ scrollStop page m) →
      (scrollLoopGo page.counts fuel prev stable att).attempts ≤ MAX_SCROLL_ATTEMPTS
      ∧ ((scrollLoopGo page.counts fuel prev stable att).stableCount
            = STABLE_COUNT_THRESHOLD
          ∨ (scrollLoopGo page.counts fuel prev stable att).attempts
            = MAX_SCROLL_ATTEMPTS)
      ∧ scrollStop page (scrollLoopGo page.counts fuel prev stable att).attempts
      ∧ ∀ m < (scrollLoopGo page.counts fuel prev stable att).attempts,
          ¬ scrollStop page m
  | 0, prev, stable, att, hfuel, _, _, _, _, _, hmin => by
    rw [scrollLoopGo]
    dsimp only
    exact ⟨by omega, Or.inr (by omega), Or.inl (by omega), hmin⟩
  | fuel + 1, prev, stable, att, hfuel, hprev, hsle, hsa, hrun, hexact, hmin => by
    rw [scrollLoopGo]
    by_cases hguard : att < MAX_SCROLL_ATTEMPTS ∧ stable < STABLE_COUNT_THRESHOLD
    · rw [if_pos hguard]
      have hstopatt : ¬ scrollStop page att := by
        intro hstop
        rcases hstop with hmax | hstab
        · omega
        · obtain ⟨hta, hall⟩ := hstab
          rcases hexact hguard.2 with heq | hneq
          · omega
          · exact hneq (hall stable hguard.2)
      have hmin2 : ∀ m < att + 1, ¬ scrollStop page m := by
        intro m hm
        rcases Nat.lt_succ_iff_lt_or_eq.mp hm with h | rfl
        · exact hmin m h
        · exact hstopatt
      by_cases hcur : page.counts att = prev
      · rw [if_pos hcur]
        apply scrollLoopGo_spec page fuel prev (stable + 1) (att + 1)
        · omega
        · rw [show extObs page (att + 1) = page.counts att from rfl, hcur]
        · omega
        · omega
        · intro j hj
          cases j with
          | zero =>
            show extObs page (att + 1 - 0) = extObs page (att + 1 - 0 - 1)
            rw [Nat.sub_zero, Nat.add_sub_cancel,
              show extObs page (att + 1) = page.counts att from rfl, hcur, hprev]
          | succ i =>
            have e1 : att + 1 - (i + 1) = att - i := by omega
            rw [e1]
            exact hrun i (by omega)
        · intro hs1
          rcases hexact (by omega) with heq | hneq
          · exact Or.inl (by omega)
          · refine Or.inr ?_
            have e1 : att + 1 - (stable + 1) = att - stable := by omega
            rw [e1]
            exact hneq
        · exact hmin2
      · rw [if_neg hcur]
        apply scrollLoopGo_spec page fuel (page.counts att) 0 (att + 1)
        · omega
        · rfl
        · omega
        · omega
        · intro j hj
          exact absurd hj (Nat.not_lt_zero j)
        · intro _
          refine Or.inr ?_
          rw [Nat.sub_zero, Nat.add_sub_cancel]
          intro h
          exact hcur ((show extObs page (att + 1) = page.counts att from rfl) ▸ h
            |>.trans hprev.symm)
        · exact hmin2
    · rw [if_neg hguard]
      dsimp only
      have hattlt : att < MAX_SCROLL_ATTEMPTS := by omega
      have hstab : stable = STABLE_COUNT_THRESHOLD := by
        rcases Decidable.not_and_iff_or_not.mp hguard with h | h
        · omega
        · omega
      refine ⟨by omega, Or.inl hstab, Or.inr ⟨by omega, ?_⟩, hmin⟩
      intro j hj
      exact hrun j (by omega)

/-- **C8** (confirmed).  For every host-page behaviour — including one
whose rendered count never stabilises — whenever the grid and scroll
container exist, the driver's loop runs at most `MAX_SCROLL_ATTEMPTS`
steps, stops either because the count was unchanged for
`STABLE_COUNT_THRESHOLD` consecutive steps or because the budget is
exhausted (whichever comes first), the stop condition holds at the exit
step, and at no earlier step `m`: the exit really is the first point where
either condition holds. -/
theorem scrollToLoad_terminates (page : PageBehavior) (w c m : Nat)
    (hg : page.hasGrid = true) (hc : page.hasContainer = true)
    (hm : m < (scrollToLoadAllPlaylists page w c).attempts) :
    (scrollToLoadAllPlaylists page w c).attempts ≤ MAX_SCROLL_ATTEMPTS
    ∧ ((scrollToLoadAllPlaylists page w c).stableCount = STABLE_COUNT_THRESHOLD
        ∨ (scrollToLoadAllPlaylists page w c).attempts = MAX_SCROLL_ATTEMPTS)
    ∧ scrollStop page (scrollToLoadAllPlaylists page w c).attempts
    ∧ ¬ scrollStop page m := by
  have hout : scrollToLoadAllPlaylists page w c
      = { returnedCount := page.counts
            (scrollLoopGo page.counts MAX_SCROLL_ATTEMPTS page.initialCount 0 0).attempts
          windowScroll := 0
          containerScroll := 0
          attempts :=
            (scrollLoopGo page.counts MAX_SCROLL_ATTEMPTS page.initialCount 0 0).attempts
          stableCount :=
            (scrollLoopGo page.counts MAX_SCROLL_ATTEMPTS page.initialCount 0 0).stableCount } := by
    simp [scrollToLoadAllPlaylists, hg, hc]
  have hspec := scrollLoopGo_spec page MAX_SCROLL_ATTEMPTS page.initialCount 0 0
    rfl rfl (by omega) (by omega)
    (fun j hj => absurd hj (Nat.not_lt_zero j))
    (fun _ => Or.inl rfl)
    (fun m hm2 => absurd hm2 (Nat.not_lt_zero m))
  rw [hout] at hm ⊢
  exact ⟨hspec.1, hspec.2.1, hspec.2.2.1, hspec.2.2.2 m hm⟩

/-- Witness for `scrollToLoad_terminates`: an immediately stable page
stops after exactly the three stability steps, and step `1` is not yet a
stop point. -/
theorem scrollToLoad_terminates_witness :
    (scrollToLoadAllPlaylists ⟨true, true, 5, fun _ => 5⟩ 9 9).attempts
        ≤ MAX_SCROLL_ATTEMPTS
    ∧ ((scrollToLoadAllPlaylists ⟨true, true, 5, fun _ => 5⟩ 9 9).stableCount
          = STABLE_COUNT_THRESHOLD
        ∨ (scrollToLoadAllPlaylists ⟨true, true, 5, fun _ => 5⟩ 9 9).attempts
          = MAX_SCROLL_ATTEMPTS)
    ∧ scrollStop ⟨true, true, 5, fun _ => 5⟩
        (scrollToLoadAllPlaylists ⟨true, true, 5, fun _ => 5⟩ 9 9).attempts
    ∧ ¬ scrollStop ⟨true, true, 5, fun _ => 5⟩ 1 :=
  scrollToLoad_terminates ⟨true, true, 5, fun _ => 5⟩ 9 9 1 rfl rfl (by decide)

end YTCatalog
